import Mathlib

/-!
Verification development for the `egpipe` program
(cmd/egpipe/egpipe.go): a pipe that reads newline-delimited JSON from
standard input, builds Azure Event Grid events from each line, and posts
them to a topic endpoint in batches.

The Go source is shallowly embedded below.  External libraries are
modelled as pure functions with doc comments saying what they stand for:
`encoding/json` unmarshalling, `strconv.ParseInt`, the time formatting of
`time.Unix(...).UTC().Format(time.RFC3339Nano)`, the JMESPath engine
(treated as a black box, per the design), and HTTP delivery (modelled as
an oracle `deliver : List E -> Bool`, true meaning status 200).  Where a
function counts something (the number of times a line is unmarshalled)
the counter is an extra component of the result; the data components are
translated directly from the Go control flow.
-/

namespace EgPipe

/-! ## Generic JSON values

Model of what `encoding/json.Unmarshal` produces for an `interface` target:
null, booleans, strings, numbers (float64 modelled as rationals), arrays
and objects.  Objects keep the field list in input order; the claims never
exercise duplicate keys, where Go would keep only the last. -/

inductive JVal where
  | null
  | bool (b : Bool)
  | str (s : String)
  | num (q : ℚ)
  | arr (xs : List JVal)
  | obj (fields : List (String × JVal))
deriving Repr

/-- Whitespace as accepted between JSON tokens. -/
def isJsonWs (c : Char) : Bool :=
  c = ' ' || c = '\t' || c = '\n' || c = '\r'

/-- Digits of a JSON number, most significant first, as a natural. -/
def digitsToNat (ds : List Char) : ℕ :=
  ds.foldl (fun acc c => acc * 10 + (c.toNat - 48)) 0

/-- Model of JSON string-literal scanning (after the opening quote):
plain characters and the single-character escapes.  The rarely used
unicode escape form is not modelled; no claim exercises it. -/
def parseJStr : List Char → Option (String × List Char)
  | [] => none
  | '"' :: rest => some ("", rest)
  | '\\' :: c :: rest =>
    let esc : Option Char :=
      match c with
      | '"' => some '"'
      | '\\' => some '\\'
      | '/' => some '/'
      | 'n' => some '\n'
      | 't' => some '\t'
      | 'r' => some '\r'
      | 'b' => some (Char.ofNat 8)
      | 'f' => some (Char.ofNat 12)
      | _ => none
    match esc with
    | none => none
    | some e => (parseJStr rest).map fun sr => (String.mk (e :: sr.1.data), sr.2)
  | c :: rest => (parseJStr rest).map fun sr => (String.mk (c :: sr.1.data), sr.2)

/-- Model of JSON number scanning: sign, integer part, optional fraction,
optional exponent, evaluated exactly as a rational (Go decodes to float64;
no claim depends on numeric parsing precision). -/
def parseJNum (cs : List Char) : Option (ℚ × List Char) :=
  let sgn :=
    match cs with
    | '-' :: r => (true, r)
    | _ => (false, cs)
  let neg := sgn.1
  let cs1 := sgn.2
  let ip := cs1.takeWhile Char.isDigit
  let cs2 := cs1.dropWhile Char.isDigit
  if ip.isEmpty then none else
  let fr :=
    match cs2 with
    | '.' :: r => (r.takeWhile Char.isDigit, r.dropWhile Char.isDigit)
    | _ => (([] : List Char), cs2)
  let fp := fr.1
  let cs3 := fr.2
  let ex :=
    match cs3 with
    | 'e' :: '-' :: r => (true, r.takeWhile Char.isDigit, r.dropWhile Char.isDigit)
    | 'e' :: '+' :: r => (false, r.takeWhile Char.isDigit, r.dropWhile Char.isDigit)
    | 'e' :: r => (false, r.takeWhile Char.isDigit, r.dropWhile Char.isDigit)
    | 'E' :: '-' :: r => (true, r.takeWhile Char.isDigit, r.dropWhile Char.isDigit)
    | 'E' :: '+' :: r => (false, r.takeWhile Char.isDigit, r.dropWhile Char.isDigit)
    | 'E' :: r => (false, r.takeWhile Char.isDigit, r.dropWhile Char.isDigit)
    | _ => (false, ([] : List Char), cs3)
  let mag : ℚ := (digitsToNat (ip ++ fp) : ℚ) / (10 : ℚ) ^ fp.length
  let mag2 : ℚ := if ex.1 then mag / (10 : ℚ) ^ digitsToNat ex.2.1
                  else mag * (10 : ℚ) ^ digitsToNat ex.2.1
  some (if neg then -mag2 else mag2, ex.2.2)

mutual

/-- Model of decoding one JSON value (the recursive core of
`encoding/json.Unmarshal` into an `interface` target).  Fuel-indexed to
make the recursion structural; `jsonUnmarshal` supplies ample fuel. -/
def parseJVal : ℕ → List Char → Option (JVal × List Char)
  | 0, _ => none
  | fuel + 1, cs =>
    let cs := cs.dropWhile isJsonWs
    match cs with
    | 'n' :: 'u' :: 'l' :: 'l' :: rest => some (.null, rest)
    | 't' :: 'r' :: 'u' :: 'e' :: rest => some (.bool true, rest)
    | 'f' :: 'a' :: 'l' :: 's' :: 'e' :: rest => some (.bool false, rest)
    | '"' :: rest => (parseJStr rest).map fun sr => (.str sr.1, sr.2)
    | '[' :: rest =>
      let rest2 := rest.dropWhile isJsonWs
      (match rest2 with
       | ']' :: r => some (.arr [], r)
       | _ => parseJArr fuel rest2 [])
    | '{' :: rest =>
      let rest2 := rest.dropWhile isJsonWs
      (match rest2 with
       | '}' :: r => some (.obj [], r)
       | _ => parseJObj fuel rest2 [])
    | _ => (parseJNum cs).map fun qr => (.num qr.1, qr.2)

/-- Elements of a JSON array after the opening bracket (accumulator in
reverse order). -/
def parseJArr : ℕ → List Char → List JVal → Option (JVal × List Char)
  | 0, _, _ => none
  | fuel + 1, cs, acc =>
    match parseJVal fuel cs with
    | none => none
    | some (v, rest) =>
      let rest := rest.dropWhile isJsonWs
      match rest with
      | ',' :: r => parseJArr fuel r (v :: acc)
      | ']' :: r => some (.arr (v :: acc).reverse, r)
      | _ => none

/-- Members of a JSON object after the opening brace (accumulator in
reverse order). -/
def parseJObj : ℕ → List Char → List (String × JVal) → Option (JVal × List Char)
  | 0, _, _ => none
  | fuel + 1, cs, acc =>
    let cs := cs.dropWhile isJsonWs
    match cs with
    | '"' :: rest =>
      (match parseJStr rest with
       | none => none
       | some (key, r1) =>
         let r1 := r1.dropWhile isJsonWs
         match r1 with
         | ':' :: r2 =>
           (match parseJVal fuel r2 with
            | none => none
            | some (v, r3) =>
              let r3 := r3.dropWhile isJsonWs
              match r3 with
              | ',' :: r4 => parseJObj fuel r4 ((key, v) :: acc)
              | '}' :: r4 => some (.obj ((key, v) :: acc).reverse, r4)
              | _ => none)
         | _ => none)
    | _ => none

end

/-- Model of `encoding/json.Unmarshal` on one input line: decode a single
value and require only whitespace afterwards. -/
def jsonUnmarshal (s : String) : Except String JVal :=
  match parseJVal (4 * s.length + 8) s.data with
  | some (v, rest) =>
    if (rest.dropWhile isJsonWs).isEmpty then .ok v
    else .error "invalid character after top-level value"
  | none => .error "unexpected end of JSON input"

/-! ## JMESPath (external black box)

The design treats the expression language as a black box
(expression × document → scalar).  Only the fragment the program
exercises is modelled: an expression compiles when it is a plain
identifier, and searching an identifier on an object looks the field up,
yielding null when absent or when the document is not an object (as the
real engine does). -/

/-- Model of `jmespath.Compile`: succeed on plain identifiers, returning
the compiled expression (represented by its own text). -/
def jmesCompile (expr : String) : Except String String :=
  if expr ≠ "" ∧ expr.data.all (fun c => c.isAlphanum || c = '_') then .ok expr
  else .error ("SyntaxError: " ++ expr)

/-- Model of `JMESPath.Search` for a compiled identifier expression. -/
def jmesSearch (jp : String) (doc : JVal) : Except String JVal :=
  match doc with
  | .obj fields => .ok ((fields.lookup jp).getD .null)
  | _ => .ok .null

/-! ## Rendering helpers for jmespathString -/

/-- Model of `strings.HasPrefix(s, "jp:")`, the test marking a field spec
as a query expression. -/
def hasJpMarker (s : String) : Bool :=
  s.data.take 3 = ['j', 'p', ':']

/-- One decimal digit as a character. -/
def digitChar (m : ℕ) : Char :=
  if m = 0 then '0' else if m = 1 then '1' else if m = 2 then '2'
  else if m = 3 then '3' else if m = 4 then '4' else if m = 5 then '5'
  else if m = 6 then '6' else if m = 7 then '7' else if m = 8 then '8'
  else '9'

/-- Fuel-indexed digit accumulation for `natChars`. -/
def natCharsAux : ℕ → ℕ → List Char
  | 0, _ => []
  | fuel + 1, n =>
    if n < 10 then [digitChar n]
    else natCharsAux fuel (n / 10) ++ [digitChar (n % 10)]

/-- Decimal digits of a natural number, most significant first. -/
def natChars (n : ℕ) : List Char :=
  natCharsAux (n + 1) n

/-- Decimal rendering of an integer. -/
def intRender (z : ℤ) : String :=
  String.mk (if z < 0 then '-' :: natChars z.natAbs else natChars z.toNat)

/-- Round to the nearest integer, ties to even: the rounding used by
fixed-precision float formatting.  Computed on the reduced fraction with
integer arithmetic: with denominator d, floor f and remainder r, the
fractional part r / d is compared against one half. -/
def roundHalfEven (q : ℚ) : ℤ :=
  let d : ℤ := (q.den : ℤ)
  let f : ℤ := q.num.fdiv d
  let r : ℤ := q.num.fmod d
  if 2 * r < d then f
  else if d < 2 * r then f + 1
  else if f % 2 = 0 then f else f + 1

/-- Model of `fmt.Sprintf` with verb `%.0f` on a float64 (numbers carried
as rationals): the value rounded to the nearest integer (ties to even)
and rendered in decimal, with no fractional part. -/
def fmtDotZeroF (q : ℚ) : String :=
  intRender (roundHalfEven q)

mutual

/-- Coarse model of `fmt.Sprintf` with verb `%v` on the remaining JSON
value kinds (the default case of jmespathString).  No claim depends on
its exact output; only the strings and numbers cases of jmespathString
are claim-relevant. -/
def goFmtV : JVal → String
  | .null => "<nil>"
  | .bool true => "true"
  | .bool false => "false"
  | .str s => s
  | .num q => if q.den = 1 then intRender q.num else toString q
  | .arr xs => "[" ++ String.intercalate " " (goFmtVList xs) ++ "]"
  | .obj fs => "map[" ++ String.intercalate " " (goFmtVFields fs) ++ "]"

/-- Elementwise `%v` rendering of an array. -/
def goFmtVList : List JVal → List String
  | [] => []
  | v :: rest => goFmtV v :: goFmtVList rest

/-- Memberwise `%v` rendering of an object. -/
def goFmtVFields : List (String × JVal) → List String
  | [] => []
  | (k, v) :: rest => (k ++ ":" ++ goFmtV v) :: goFmtVFields rest

end

/-- From the source, `jmespathString`: evaluate the compiled expression
against the document and stringify the result.  Strings pass through;
a float64 result is rendered with `%.0f` (no fractional part); anything
else goes through the generic `%v` representation. -/
def jmespathString (jp : String) (data : JVal) : Except String String :=
  match jmesSearch jp data with
  | .error e => .error e
  | .ok got =>
    match got with
    | .str val => .ok val
    | .num val => .ok (fmtDotZeroF val)
    | other => .ok (goFmtV other)

/-! ## Time formatting (model of the time package) -/

/-- Civil date from a count of days since 1970-01-01 (proleptic
Gregorian), the arithmetic underlying the time package calendar:
returns (year, month, day). -/
def civilFromDays (z0 : ℤ) : ℤ × ℕ × ℕ :=
  let z := z0 + 719468
  let era := z.fdiv 146097
  let doe := (z - era * 146097).toNat
  let yoe := (doe - doe / 1460 + doe / 36524 - doe / 146096) / 365
  let y := (yoe : ℤ) + era * 400
  let doy := doe - (365 * yoe + yoe / 4 - yoe / 100)
  let mp := (5 * doy + 2) / 153
  let d := doy - (153 * mp + 2) / 5 + 1
  let m := if mp < 10 then mp + 3 else mp - 9
  (if m ≤ 2 then y + 1 else y, m, d)

/-- Two-digit zero-padded rendering. -/
def pad2 (n : ℕ) : String :=
  if n < 10 then "0" ++ toString n else toString n

/-- At-least-four-digit zero-padded rendering (Go year formatting). -/
def pad4 (n : ℕ) : String :=
  let s := toString n
  String.mk (List.replicate (4 - s.length) '0') ++ s

/-- Nine-digit zero-padded rendering (nanosecond field). -/
def pad9 (n : ℕ) : String :=
  let s := toString n
  String.mk (List.replicate (9 - s.length) '0') ++ s

/-- Trailing zeros removed, as the `.999999999` layout fragment does. -/
def dropTrailingZeros (cs : List Char) : List Char :=
  (cs.reverse.dropWhile (fun c => c = '0')).reverse

/-- Year field of the RFC3339 layout: at least four digits, minus sign
for negative years. -/
def fmtYear (y : ℤ) : String :=
  if y < 0 then "-" ++ pad4 y.natAbs else pad4 y.toNat

/-- Model of `Format(time.RFC3339Nano)` on a UTC instant given as
nanoseconds since the Unix epoch: date, clock time, a fractional-second
field with trailing zeros removed and omitted entirely when zero, and
the `Z` zone designator. -/
def fmtRFC3339NanoOfNs (ns : ℤ) : String :=
  let sec := ns.fdiv 1000000000
  let nsec := (ns.fmod 1000000000).toNat
  let days := sec.fdiv 86400
  let sod := (sec.fmod 86400).toNat
  let ymd := civilFromDays days
  let frac :=
    if nsec = 0 then ""
    else "." ++ String.mk (dropTrailingZeros (pad9 nsec).data)
  fmtYear ymd.1 ++ "-" ++ pad2 ymd.2.1 ++ "-" ++ pad2 ymd.2.2 ++ "T" ++
    pad2 (sod / 3600) ++ ":" ++ pad2 (sod % 3600 / 60) ++ ":" ++
    pad2 (sod % 60) ++ frac ++ "Z"

/-- Model of `time.Unix(sec, nsec).UTC().Format(time.RFC3339Nano)`:
the instant is exactly `sec * 1e9 + nsec` nanoseconds since the epoch
(`time.Unix` accepts nsec outside `[0, 1e9)` and normalizes). -/
def goTimeUnixUTCRFC3339Nano (sec nsec : ℤ) : String :=
  fmtRFC3339NanoOfNs (sec * 1000000000 + nsec)

/-- Model of `strconv.ParseInt(s, 10, 64)`: optional sign, at least one
decimal digit, value within the signed 64-bit range. -/
def goParseInt64 (s : String) : Except String ℤ :=
  let sgn :=
    match s.data with
    | '-' :: rest => (true, rest)
    | '+' :: rest => (false, rest)
    | cs => (false, cs)
  let neg := sgn.1
  let ds := sgn.2
  if ds = [] then .error ("invalid syntax: " ++ s)
  else if ds.all Char.isDigit then
    let n : ℕ := digitsToNat ds
    let v : ℤ := if neg then -(n : ℤ) else (n : ℤ)
    if v < -(2 ^ 63) ∨ (2 ^ 63 - 1 : ℤ) < v then .error ("value out of range: " ++ s)
    else .ok v
  else .error ("invalid syntax: " ++ s)

/-! ## Line data and field resolution -/

/-- From the source, `lineData`: the raw line and the lazily parsed
generic JSON form.  In Go `iface` starts as nil (here: none). -/
structure lineData where
  data : String
  iface : Option JVal := none

/-- From the source, `lineData.unmarshalled`.  Go declares this on a
value receiver, so the assignment to the iface field happens on a local
copy and is never observable by the caller; accordingly only the parsed
value is returned here.  The second component counts invocations of
`json.Unmarshal`, used by the claims about how often a line is parsed. -/
def lineData.unmarshalled (l : lineData) : Except String JVal × ℕ :=
  match l.iface with
  | some v => (.ok v, 0)
  | none => (jsonUnmarshal l.data, 1)

/-- From the source, `cliOptions`: the configuration surface.  The two
memo maps of the Go struct (compiled expressions by field name, and the
field-spec map) are modelled by the pure functions `cliOptions.jmespath`
and `cliOptions.optDef`; both Go caches are keyed by data that never
changes during a run, so caching and recomputing coincide. -/
structure cliOptions where
  TopicEndpoint : String
  ID : String
  Subject : String
  EventType : String
  EventTime : String
  Header : List String
  DataVersion : String
  BatchSize : ℤ
  FlushInterval : ℤ

/-- From the source, `cliOptions.optDef`: the field-spec map built from
the option struct, with the zero value for unknown names. -/
def cliOptions.optDef (c : cliOptions) (name : String) : String :=
  if name = "subject" then c.Subject
  else if name = "id" then c.ID
  else if name = "eventType" then c.EventType
  else if name = "eventTime" then c.EventTime
  else if name = "dataVersion" then c.DataVersion
  else ""

/-- From the source, `cliOptions.jmespath`: nil for values without the
`jp:` marker, otherwise the compiled expression (cached by field name in
Go; the cache is behaviorally transparent and not materialized here). -/
def cliOptions.jmespath (_c : cliOptions) (_name val : String) :
    Except String (Option String) :=
  if ¬ hasJpMarker val then .ok none
  else
    match jmesCompile (val.drop 3) with
    | .ok jp => .ok (some jp)
    | .error e => .error e

/-- From the source, `cliOptions.getVal`: resolve one field.  A spec with
the `jp:` marker is compiled and evaluated against the unmarshalled line;
any other spec is returned verbatim.  The second component counts
invocations of `json.Unmarshal` performed by the call. -/
def cliOptions.getVal (c : cliOptions) (valName : String) (data : lineData) :
    Except String String × ℕ :=
  let optDef := c.optDef valName
  if hasJpMarker optDef then
    match c.jmespath valName optDef with
    | .error e => (.error e, 0)
    | .ok none => (.error "nil JMESPath", 0)
    | .ok (some jp) =>
      match data.unmarshalled with
      | (.error e, n) => (.error e, n)
      | (.ok jd, n) => (jmespathString jp jd, n)
  else (.ok optDef, 0)

/-- From the source, the tail of `cliOptions.eventTime` after the field
is resolved: the literal `now` yields the current instant formatted as
RFC3339 with nanoseconds (the instant passed in as `nowNs`); any other
string must parse as an integer count of epoch milliseconds, split with
Go truncated division into seconds and a millisecond remainder and then
formatted the same way. -/
def eventTimeOfStr (nowNs : ℤ) (strVal : String) : Except String String :=
  if strVal = "now" then .ok (fmtRFC3339NanoOfNs nowNs)
  else
    match goParseInt64 strVal with
    | .error e => .error e
    | .ok iVal =>
      let secs := iVal.tdiv 1000
      let ms := iVal.tmod 1000
      let ns := ms * 1000000
      .ok (goTimeUnixUTCRFC3339Nano secs ns)

/-- From the source, `cliOptions.eventTime`: resolve the `eventTime`
field, then apply the timestamp transformation. -/
def cliOptions.eventTime (c : cliOptions) (nowNs : ℤ) (ld : lineData) :
    Except String String × ℕ :=
  match c.getVal "eventTime" ld with
  | (.error e, n) => (.error e, n)
  | (.ok strVal, n) => (eventTimeOfStr nowNs strVal, n)

/-- From the source, `event`: the Event Grid schema record.  `Data` holds
the raw line bytes (`json.RawMessage`). -/
structure event where
  ID : String
  Topic : String
  Subject : String
  Data : String
  EventType : String
  EventTime : String
  DataVersion : String

/-- From the source, `buildEvent`: one lineData value is created for the
line and passed (by value) to each resolver; fields resolve in the order
id, subject, dataVersion, eventTime, eventType, stopping at the first
error.  An empty resolved id is replaced by a freshly generated uuid
(passed in as `uuid`; its generation is opaque).  The second component
counts invocations of `json.Unmarshal` across the whole build. -/
def buildEvent (c : cliOptions) (uuid : String) (nowNs : ℤ) (data : String) :
    Except String event × ℕ :=
  let ld : lineData := { data := data }
  match c.getVal "id" ld with
  | (.error e, n) => (.error e, n)
  | (.ok id0, n1) =>
    let evID := if id0 = "" then uuid else id0
    match c.getVal "subject" ld with
    | (.error e, n) => (.error e, n1 + n)
    | (.ok subj, n2) =>
      match c.getVal "dataVersion" ld with
      | (.error e, n) => (.error e, n1 + n2 + n)
      | (.ok dv, n3) =>
        match c.eventTime nowNs ld with
        | (.error e, n) => (.error e, n1 + n2 + n3 + n)
        | (.ok et, n4) =>
          match c.getVal "eventType" ld with
          | (.error e, n) => (.error e, n1 + n2 + n3 + n4 + n)
          | (.ok ety, n5) =>
            (.ok { ID := evID, Topic := "", Subject := subj, Data := data,
                   EventType := ety, EventTime := et, DataVersion := dv },
             n1 + n2 + n3 + n4 + n5)

/-! ## The batching publisher

Events are opaque to the publisher, so it is modelled generically.  HTTP
delivery is modelled by an oracle `deliver : List E -> Bool` applied to
the batch being sent: true stands for a 200 response, false for a
transport error or non-200 status (Go returns the error `not OK`).  Each
operation returns the new publisher state, the list of delivery attempts
it performed (each attempt carrying the full batch that was encoded as
the request body, in append order), and the error result. -/

/-- From the source, `eventGridPublisher`: the pending batch (`cache`),
the size threshold, and a counter of `resetTicker` signals standing in
for the timer-restart callback. -/
structure eventGridPublisher (E : Type) where
  cache : List E
  maxQueueSize : ℤ
  tickerResets : ℕ

/-- From the source, `eventGridPublisher.flushIfNeeded`: a no-op when the
cache is empty or strictly smaller than the threshold; otherwise the
whole cache is sent as one request and, only on success, cleared. -/
def flushIfNeeded {E : Type} (deliver : List E → Bool)
    (p : eventGridPublisher E) (maxQueueSize : ℤ) :
    eventGridPublisher E × List (List E) × Except String Unit :=
  if p.cache.length = 0 ∨ (p.cache.length : ℤ) < maxQueueSize then (p, [], .ok ())
  else if deliver p.cache then ({ p with cache := [] }, [p.cache], .ok ())
  else (p, [p.cache], .error "not OK")

/-- From the source, `eventGridPublisher.addEvent`: append the event,
signal the ticker when the cache becomes non-empty, then flush against
the configured threshold. -/
def addEvent {E : Type} (deliver : List E → Bool)
    (p : eventGridPublisher E) (ev : E) :
    eventGridPublisher E × List (List E) × Except String Unit :=
  let p1 : eventGridPublisher E :=
    { p with
      cache := p.cache ++ [ev],
      tickerResets :=
        if (p.cache ++ [ev]).length = 1 then p.tickerResets + 1
        else p.tickerResets }
  flushIfNeeded deliver p1 p.maxQueueSize

/-- A sequence of addEvent calls, accumulating the delivery attempts of
the add path (the ingestion loop is the only caller of addEvent; timer
ticks call flushIfNeeded directly and are not part of this sequence). -/
def runAdds {E : Type} (deliver : List E → Bool)
    (p : eventGridPublisher E) : List E → eventGridPublisher E × List (List E)
  | [] => (p, [])
  | e :: rest =>
    let r1 := addEvent deliver p e
    let r2 := runAdds deliver r1.1 rest
    (r2.1, r1.2.1 ++ r2.2)

/-! ## Helper lemmas about the publisher -/

/-- Unfolding equation for addEvent. -/
theorem addEvent_eq {E : Type} (deliver : List E → Bool)
    (p : eventGridPublisher E) (e : E) :
    addEvent deliver p e =
      flushIfNeeded deliver
        { cache := p.cache ++ [e], maxQueueSize := p.maxQueueSize,
          tickerResets :=
            if (p.cache ++ [e]).length = 1 then p.tickerResets + 1
            else p.tickerResets }
        p.maxQueueSize := rfl

/-- flushIfNeeded is a no-op below the threshold. -/
theorem flushIfNeeded_noop {E : Type} (deliver : List E → Bool)
    (p : eventGridPublisher E) (t : ℤ)
    (h : p.cache.length = 0 ∨ (p.cache.length : ℤ) < t) :
    flushIfNeeded deliver p t = (p, [], .ok ()) := by
  unfold flushIfNeeded
  rw [if_pos h]

/-- flushIfNeeded sends and clears on a successful delivery. -/
theorem flushIfNeeded_send_ok {E : Type} (deliver : List E → Bool)
    (p : eventGridPublisher E) (t : ℤ)
    (h : ¬ (p.cache.length = 0 ∨ (p.cache.length : ℤ) < t))
    (hd : deliver p.cache = true) :
    flushIfNeeded deliver p t = ({ p with cache := [] }, [p.cache], .ok ()) := by
  unfold flushIfNeeded
  rw [if_neg h, if_pos hd]

/-- flushIfNeeded sends and keeps the cache on a failed delivery. -/
theorem flushIfNeeded_send_fail {E : Type} (deliver : List E → Bool)
    (p : eventGridPublisher E) (t : ℤ)
    (h : ¬ (p.cache.length = 0 ∨ (p.cache.length : ℤ) < t))
    (hd : deliver p.cache = false) :
    flushIfNeeded deliver p t = (p, [p.cache], .error "not OK") := by
  unfold flushIfNeeded
  rw [if_neg h]
  simp [hd]

/-- Unfolding equations for runAdds. -/
theorem runAdds_nil {E : Type} (deliver : List E → Bool)
    (p : eventGridPublisher E) : runAdds deliver p [] = (p, []) := rfl

/-- One step of runAdds. -/
theorem runAdds_cons {E : Type} (deliver : List E → Bool)
    (p : eventGridPublisher E) (e : E) (rest : List E) :
    runAdds deliver p (e :: rest) =
      ((runAdds deliver (addEvent deliver p e).1 rest).1,
        (addEvent deliver p e).2.1 ++
          (runAdds deliver (addEvent deliver p e).1 rest).2) := rfl

/-! ## Claims -/

/-- C1: for every threshold t and publisher state, flushIfNeeded t is a
no-op (no delivery, pending unchanged) when pending is empty or shorter
than t; otherwise it performs exactly one delivery whose request body is
the entire pending sequence in append order and, on success, clears
pending; and flushIfNeeded 0 always delivers non-empty pending, however
small. -/
theorem c1_flushIfNeeded_spec {E : Type} (deliver : List E → Bool)
    (p : eventGridPublisher E) (t : ℤ) :
    (p.cache = [] ∨ (p.cache.length : ℤ) < t →
      flushIfNeeded deliver p t = (p, [], .ok ())) ∧
    (p.cache ≠ [] → ¬ ((p.cache.length : ℤ) < t) →
      (flushIfNeeded deliver p t).2.1 = [p.cache] ∧
      (deliver p.cache = true →
        flushIfNeeded deliver p t = ({ p with cache := [] }, [p.cache], .ok ()))) ∧
    (p.cache ≠ [] →
      (flushIfNeeded deliver p 0).2.1 = [p.cache] ∧
      (deliver p.cache = true → (flushIfNeeded deliver p 0).1.cache = [])) := by
  have hlen : p.cache ≠ [] → ¬ p.cache.length = 0 := by
    intro hne h0
    exact hne (List.length_eq_zero.mp h0)
  refine ⟨?_, ?_, ?_⟩
  · intro h
    apply flushIfNeeded_noop
    rcases h with h | h
    · exact Or.inl (by simp [h])
    · exact Or.inr h
  · intro hne hlt
    have hcond : ¬ (p.cache.length = 0 ∨ (p.cache.length : ℤ) < t) := by
      push_neg
      exact ⟨hlen hne, by omega⟩
    constructor
    · cases hd : deliver p.cache
      · rw [flushIfNeeded_send_fail deliver p t hcond hd]
      · rw [flushIfNeeded_send_ok deliver p t hcond hd]
    · intro hd
      exact flushIfNeeded_send_ok deliver p t hcond hd
  · intro hne
    have hcond : ¬ (p.cache.length = 0 ∨ (p.cache.length : ℤ) < 0) := by
      push_neg
      exact ⟨hlen hne, by omega⟩
    constructor
    · cases hd : deliver p.cache
      · rw [flushIfNeeded_send_fail deliver p 0 hcond hd]
      · rw [flushIfNeeded_send_ok deliver p 0 hcond hd]
    · intro hd
      rw [flushIfNeeded_send_ok deliver p 0 hcond hd]

/-- Witness for C1 at a concrete state: threshold 3 with two pending
events is a no-op; threshold 0 with the same pending delivers it all. -/
theorem c1_flushIfNeeded_spec_witness :
    flushIfNeeded (fun _ => true) (⟨[5, 6], 3, 1⟩ : eventGridPublisher ℕ) 3 =
      (⟨[5, 6], 3, 1⟩, [], .ok ()) ∧
    (flushIfNeeded (fun _ => true) (⟨[5, 6], 3, 1⟩ : eventGridPublisher ℕ) 0).2.1 =
      [[5, 6]] ∧
    (flushIfNeeded (fun _ => true) (⟨[5, 6], 3, 1⟩ : eventGridPublisher ℕ) 0).1.cache =
      [] := by
  refine ⟨?_, ?_, ?_⟩
  · exact (c1_flushIfNeeded_spec (fun _ => true) ⟨[5, 6], 3, 1⟩ 3).1 (by decide)
  · exact ((c1_flushIfNeeded_spec (fun _ => true) ⟨[5, 6], 3, 1⟩ 3).2.2 (by decide)).1
  · exact ((c1_flushIfNeeded_spec (fun _ => true) ⟨[5, 6], 3, 1⟩ 3).2.2 (by decide)).2 rfl

/-- C2 counterexample: with maxBatchSize 0 a single addEvent on an empty
publisher already performs a delivery (of the one-event batch), so it is
false that no addEvent call triggers a delivery when maxBatchSize is 0. -/
theorem c2_maxBatchZero_cex :
    (addEvent (fun _ => true) (⟨[], 0, 0⟩ : eventGridPublisher ℕ) 7).2.1 = [[7]] ∧
    (addEvent (fun _ => true) (⟨[], 0, 0⟩ : eventGridPublisher ℕ) 7).2.1 ≠ [] := by
  decide

/-- C2 amended: with maxBatchSize 0 the batch is not unbounded; on the
contrary, every addEvent call itself performs a delivery of the entire
pending sequence including the event just appended (threshold 0 always
flushes a non-empty pending batch). -/
theorem c2_maxBatchZero_amended {E : Type} (deliver : List E → Bool)
    (p : eventGridPublisher E) (ev : E) (h : p.maxQueueSize = 0) :
    (addEvent deliver p ev).2.1 = [p.cache ++ [ev]] := by
  rw [addEvent_eq, h]
  have hcond : ¬ ((p.cache ++ [ev]).length = 0 ∨
      (((p.cache ++ [ev]).length : ℤ) < 0)) := by
    push_neg
    constructor
    · simp
    · omega
  cases hd : deliver (p.cache ++ [ev])
  · rw [flushIfNeeded_send_fail _ _ _ hcond hd]
  · rw [flushIfNeeded_send_ok _ _ _ hcond hd]

/-- Witness for C2 amended: a publisher with one pending event and
maxQueueSize 0 delivers both events on the next addEvent. -/
theorem c2_maxBatchZero_amended_witness :
    (addEvent (fun _ => true) (⟨[4], 0, 1⟩ : eventGridPublisher ℕ) 7).2.1 =
      [[4, 7]] :=
  c2_maxBatchZero_amended (fun _ => true) ⟨[4], 0, 1⟩ 7 rfl

/-- C3 counterexample: a failing delivery from flushIfNeeded returns the
error with pending still holding the undelivered batch, so it is false
that the failed batch has been discarded (pending left empty). -/
theorem c3_failedFlush_cex :
    (flushIfNeeded (fun _ => false) (⟨[3], 0, 0⟩ : eventGridPublisher ℕ) 0).2.2 =
      .error "not OK" ∧
    (flushIfNeeded (fun _ => false) (⟨[3], 0, 0⟩ : eventGridPublisher ℕ) 0).1.cache =
      [3] ∧
    (flushIfNeeded (fun _ => false) (⟨[3], 0, 0⟩ : eventGridPublisher ℕ) 0).1.cache ≠
      [] := by
  refine ⟨rfl, rfl, by decide⟩

/-- C3 amended: when the delivery fails, flushIfNeeded returns the error
and leaves pending unchanged, still holding the undelivered events; the
batch is cleared only on successful delivery (at process level the error
then aborts the run, so the batch is never retried). -/
theorem c3_failedFlush_amended {E : Type} (deliver : List E → Bool)
    (p : eventGridPublisher E) (t : ℤ)
    (hne : p.cache ≠ []) (hth : ¬ ((p.cache.length : ℤ) < t))
    (hfail : deliver p.cache = false) :
    flushIfNeeded deliver p t = (p, [p.cache], .error "not OK") := by
  apply flushIfNeeded_send_fail deliver p t ?_ hfail
  push_neg
  refine ⟨?_, by omega⟩
  intro h0
  exact hne (List.length_eq_zero.mp h0)

/-- Witness for C3 amended at a concrete failing state. -/
theorem c3_failedFlush_amended_witness :
    flushIfNeeded (fun _ => false) (⟨[8, 9], 2, 0⟩ : eventGridPublisher ℕ) 2 =
      (⟨[8, 9], 2, 0⟩, [[8, 9]], .error "not OK") :=
  c3_failedFlush_amended (fun _ => false) ⟨[8, 9], 2, 0⟩ 2 (by decide) (by decide) rfl

/-- C5 counterexample: with maxBatchSize 1 and failing deliveries, a
second addEvent call returns with two entries pending, exceeding the
threshold, so the invariant as stated (for every sequence of addEvent
calls) is false. -/
theorem c5_invariant_cex :
    ((addEvent (fun _ => false)
        (addEvent (fun _ => false) (⟨[], 1, 0⟩ : eventGridPublisher ℕ) 10).1
        20).1.cache.length : ℤ) = 2 ∧
    ((addEvent (fun _ => false)
        (addEvent (fun _ => false) (⟨[], 1, 0⟩ : eventGridPublisher ℕ) 10).1
        20).1.maxQueueSize : ℤ) = 1 := by
  decide

/-- Unfolding equation for addEvent on an explicit state. -/
theorem addEvent_mk {E : Type} (deliver : List E → Bool)
    (c : List E) (kk : ℤ) (t : ℕ) (e : E) :
    addEvent deliver ⟨c, kk, t⟩ e =
      flushIfNeeded deliver
        ⟨c ++ [e], kk, if (c ++ [e]).length = 1 then t + 1 else t⟩ kk := rfl

/-- Behavior of a sequence of addEvent calls when every delivery
succeeds, starting from a cache strictly below the threshold k: the
delivered batches followed by the final cache are exactly the starting
cache followed by the added events, every delivered batch has exactly k
events, and the final cache length is the remainder modulo k. -/
theorem runAdds_ok {E : Type} (deliver : List E → Bool)
    (hd : ∀ b, deliver b = true) (k : ℕ) (hk : 1 ≤ k) :
    ∀ (evs c : List E) (t : ℕ), c.length < k →
      ((runAdds deliver ⟨c, (k : ℤ), t⟩ evs).2.flatten ++
          (runAdds deliver ⟨c, (k : ℤ), t⟩ evs).1.cache = c ++ evs) ∧
      (∀ b ∈ (runAdds deliver ⟨c, (k : ℤ), t⟩ evs).2, b.length = k) ∧
      ((runAdds deliver ⟨c, (k : ℤ), t⟩ evs).1.cache.length =
        (c.length + evs.length) % k) := by
  intro evs
  induction evs with
  | nil =>
    intro c t hc
    refine ⟨by simp [runAdds_nil], by simp [runAdds_nil], ?_⟩
    simp [runAdds_nil, Nat.mod_eq_of_lt hc]
  | cons e rest ih =>
    intro c t hc
    rw [runAdds_cons, addEvent_mk]
    by_cases hlt : c.length + 1 < k
    · have hcond :
          (⟨c ++ [e], (k : ℤ), if (c ++ [e]).length = 1 then t + 1 else t⟩ :
              eventGridPublisher E).cache.length = 0 ∨
            ((⟨c ++ [e], (k : ℤ), if (c ++ [e]).length = 1 then t + 1 else t⟩ :
              eventGridPublisher E).cache.length : ℤ) < ((k : ℕ) : ℤ) := by
        dsimp only
        right
        simp only [List.length_append, List.length_cons, List.length_nil]
        omega
      rw [flushIfNeeded_noop _ _ _ hcond]
      dsimp only
      obtain ⟨ih1, ih2, ih3⟩ :=
        ih (c ++ [e]) (if (c ++ [e]).length = 1 then t + 1 else t)
          (by simpa using hlt)
      refine ⟨?_, ?_, ?_⟩
      · rw [List.nil_append, ih1]
        simp
      · simpa using ih2
      · rw [ih3]
        have harg2 : (c ++ [e]).length + rest.length =
            c.length + (e :: rest).length := by
          simp only [List.length_append, List.length_cons, List.length_nil]
          omega
        rw [harg2]
    · have hek : c.length + 1 = k := by omega
      have hcond :
          ¬ ((⟨c ++ [e], (k : ℤ), if (c ++ [e]).length = 1 then t + 1 else t⟩ :
              eventGridPublisher E).cache.length = 0 ∨
            ((⟨c ++ [e], (k : ℤ), if (c ++ [e]).length = 1 then t + 1 else t⟩ :
              eventGridPublisher E).cache.length : ℤ) < ((k : ℕ) : ℤ)) := by
        dsimp only
        push_neg
        simp only [List.length_append, List.length_cons, List.length_nil]
        omega
      have hdel :
          deliver (⟨c ++ [e], (k : ℤ), if (c ++ [e]).length = 1 then t + 1 else t⟩ :
            eventGridPublisher E).cache = true := hd _
      rw [flushIfNeeded_send_ok _ _ _ hcond hdel]
      dsimp only
      obtain ⟨ih1, ih2, ih3⟩ :=
        ih [] (if (c ++ [e]).length = 1 then t + 1 else t) (by simpa using hk)
      rw [List.nil_append] at ih1
      refine ⟨?_, ?_, ?_⟩
      · simp only [List.singleton_append, List.flatten_cons, List.append_assoc,
          List.cons_append, List.nil_append]
        rw [ih1]
      · intro b hb
        rcases List.mem_cons.mp hb with hb | hb
        · subst hb
          simp only [List.length_append, List.length_cons, List.length_nil]
          omega
        · exact ih2 b hb
      · rw [ih3]
        have harg : c.length + (e :: rest).length = k + rest.length := by
          simp only [List.length_cons]
          omega
        rw [harg, Nat.add_mod_left]
        simp

/-- C4: calling addEvent n times with maxBatchSize k at least 1 (all
deliveries succeeding, no timer flushes) performs exactly n / k
deliveries from the add path, each delivering exactly k events, and the
concatenation of the delivered batches is the first k * (n / k) events
in arrival order. -/
theorem c4_addEvent_batches {E : Type} (k : ℕ) (hk : 1 ≤ k) (evs : List E) :
    ((runAdds (fun _ => true) ⟨[], (k : ℤ), 0⟩ evs).2.length =
      evs.length / k) ∧
    (∀ b ∈ (runAdds (fun _ => true) ⟨[], (k : ℤ), 0⟩ evs).2, b.length = k) ∧
    ((runAdds (fun _ => true) ⟨[], (k : ℤ), 0⟩ evs).2.flatten =
      evs.take (k * (evs.length / k))) := by
  obtain ⟨h1, h2, h3⟩ :=
    runAdds_ok (fun _ => true) (fun _ => rfl) k hk evs [] 0 (by simpa using hk)
  rw [List.nil_append] at h1
  simp only [List.length_nil, Nat.zero_add] at h3
  have hflat : (runAdds (fun _ => true)
      (⟨[], (k : ℤ), 0⟩ : eventGridPublisher E) evs).2.flatten.length =
      (runAdds (fun _ => true)
        (⟨[], (k : ℤ), 0⟩ : eventGridPublisher E) evs).2.length * k := by
    rw [List.length_flatten]
    have hmap : (runAdds (fun _ => true)
        (⟨[], (k : ℤ), 0⟩ : eventGridPublisher E) evs).2.map List.length =
        List.replicate ((runAdds (fun _ => true)
          (⟨[], (k : ℤ), 0⟩ : eventGridPublisher E) evs).2.length) k := by
      apply List.eq_replicate_iff.mpr
      refine ⟨by simp, ?_⟩
      intro b hb
      rcases List.mem_map.mp hb with ⟨x, hx, hxl⟩
      rw [← hxl]
      exact h2 x hx
    rw [hmap, List.sum_replicate, smul_eq_mul]
  have hlensum : (runAdds (fun _ => true)
      (⟨[], (k : ℤ), 0⟩ : eventGridPublisher E) evs).2.flatten.length +
      (runAdds (fun _ => true)
        (⟨[], (k : ℤ), 0⟩ : eventGridPublisher E) evs).1.cache.length =
      evs.length := by
    have := congrArg List.length h1
    simpa using this
  have hdm := Nat.div_add_mod evs.length k
  have hcount : (runAdds (fun _ => true)
      (⟨[], (k : ℤ), 0⟩ : eventGridPublisher E) evs).2.length =
      evs.length / k := by
    have he1 : (runAdds (fun _ => true)
        (⟨[], (k : ℤ), 0⟩ : eventGridPublisher E) evs).2.length * k +
        evs.length % k = evs.length := by
      rw [← hflat, ← h3]
      exact hlensum
    have he2 : (evs.length / k) * k + evs.length % k = evs.length := by
      rw [Nat.mul_comm]
      exact hdm
    have := Nat.add_right_cancel (he1.trans he2.symm)
    exact Nat.eq_of_mul_eq_mul_right (by omega) this
  refine ⟨hcount, h2, ?_⟩
  have htake := List.take_left
    ((runAdds (fun _ => true)
      (⟨[], (k : ℤ), 0⟩ : eventGridPublisher E) evs).2.flatten)
    ((runAdds (fun _ => true)
      (⟨[], (k : ℤ), 0⟩ : eventGridPublisher E) evs).1.cache)
  rw [h1] at htake
  have hlen2 : k * (evs.length / k) = (runAdds (fun _ => true)
      (⟨[], (k : ℤ), 0⟩ : eventGridPublisher E) evs).2.flatten.length := by
    rw [hflat, hcount, Nat.mul_comm]
  rw [hlen2]
  exact htake.symm

/-- Witness for C4: five events with batch size two produce two
deliveries of two events each, covering the first four events in
order. -/
theorem c4_addEvent_batches_witness :
    ((runAdds (fun _ => true) (⟨[], ((2 : ℕ) : ℤ), 0⟩ : eventGridPublisher ℕ)
        [1, 2, 3, 4, 5]).2.length = [1, 2, 3, 4, 5].length / 2) ∧
    (∀ b ∈ (runAdds (fun _ => true)
        (⟨[], ((2 : ℕ) : ℤ), 0⟩ : eventGridPublisher ℕ) [1, 2, 3, 4, 5]).2,
      b.length = 2) ∧
    ((runAdds (fun _ => true) (⟨[], ((2 : ℕ) : ℤ), 0⟩ : eventGridPublisher ℕ)
        [1, 2, 3, 4, 5]).2.flatten =
      [1, 2, 3, 4, 5].take (2 * ([1, 2, 3, 4, 5].length / 2))) :=
  c4_addEvent_batches 2 (by decide) [1, 2, 3, 4, 5]

/-- C5 amended: with maxBatchSize k at least 1, as long as every
delivery succeeds, the pending batch never exceeds k entries at the
moment any addEvent call returns (a size-triggering add flushes
synchronously before returning); after a failed delivery the batch is
retained, so a later addEvent can leave pending above k (see the
counterexample). -/
theorem c5_invariant_amended {E : Type} (deliver : List E → Bool)
    (hd : ∀ b, deliver b = true) (k : ℕ) (hk : 1 ≤ k)
    (evs : List E) (i : ℕ) :
    (runAdds deliver ⟨[], (k : ℤ), 0⟩ (evs.take i)).1.cache.length ≤ k := by
  have h := (runAdds_ok deliver hd k hk (evs.take i) [] 0 (by simpa using hk)).2.2
  rw [h]
  exact le_of_lt (Nat.mod_lt _ (by omega))

/-- Witness for C5 amended: after three adds with batch size two the
pending batch holds one event, within the threshold. -/
theorem c5_invariant_amended_witness :
    (runAdds (fun _ => true) (⟨[], ((2 : ℕ) : ℤ), 0⟩ : eventGridPublisher ℕ)
      ([1, 2, 3, 4, 5].take 3)).1.cache.length ≤ 2 :=
  c5_invariant_amended (fun _ => true) (fun _ => rfl) 2 (by decide) [1, 2, 3, 4, 5] 3

/-- C7: for a resolved eventTime string other than the literal now, a
string parsing as a 64-bit decimal integer i yields exactly the instant
i milliseconds after the Unix epoch, converted to UTC and formatted as
RFC3339 with nanoseconds; in particular 1608309835000 yields exactly
2020-12-18T16:43:55Z with no fractional second (and a non-zero
millisecond remainder yields a fractional part); a string that does not
parse as an integer yields an error. -/
theorem c7_eventTime_spec (nowNs : ℤ) :
    (∀ s i, s ≠ "now" → goParseInt64 s = .ok i →
      eventTimeOfStr nowNs s = .ok (fmtRFC3339NanoOfNs (i * 1000000))) ∧
    (∀ s e, s ≠ "now" → goParseInt64 s = .error e →
      eventTimeOfStr nowNs s = .error e) ∧
    eventTimeOfStr nowNs "1608309835000" = .ok "2020-12-18T16:43:55Z" ∧
    eventTimeOfStr nowNs "1608309835123" = .ok "2020-12-18T16:43:55.123Z" := by
  have hconc : ∀ s r, s ≠ "now" → eventTimeOfStr 0 s = r →
      eventTimeOfStr nowNs s = r := by
    intro s r hs h
    unfold eventTimeOfStr at h ⊢
    rw [if_neg hs] at h ⊢
    exact h
  refine ⟨?_, ?_, hconc _ _ (by decide) (by rfl), hconc _ _ (by decide) (by rfl)⟩
  · intro s i hs hp
    unfold eventTimeOfStr
    rw [if_neg hs, hp]
    dsimp only
    unfold goTimeUnixUTCRFC3339Nano
    have harg : i.tdiv 1000 * 1000000000 + i.tmod 1000 * 1000000 =
        i * 1000000 := by
      have h := Int.tdiv_add_tmod i 1000
      linear_combination (1000000 : ℤ) * h
    rw [harg]
  · intro s e hs hp
    unfold eventTimeOfStr
    rw [if_neg hs, hp]

/-- Witness for C7: the integer case at the documented example, and the
error case at a non-numeric string. -/
theorem c7_eventTime_spec_witness :
    eventTimeOfStr 0 "1608309835000" =
      .ok (fmtRFC3339NanoOfNs (1608309835000 * 1000000)) ∧
    eventTimeOfStr 0 "abc" = .error "invalid syntax: abc" :=
  ⟨(c7_eventTime_spec 0).1 "1608309835000" 1608309835000 (by decide) rfl,
   (c7_eventTime_spec 0).2.1 "abc" "invalid syntax: abc" (by decide) rfl⟩

/-- C9: a field spec without the jp marker resolves verbatim, never
fails, and never touches the input document (zero unmarshal calls); the
result is the same for any two input lines, including lines that are not
valid JSON. -/
theorem c9_literal_spec (c : cliOptions) (name : String) (ld ld2 : lineData)
    (h : hasJpMarker (c.optDef name) = false) :
    c.getVal name ld = (.ok (c.optDef name), 0) ∧
    c.getVal name ld = c.getVal name ld2 := by
  have hmain : ∀ l : lineData, c.getVal name l = (.ok (c.optDef name), 0) := by
    intro l
    unfold cliOptions.getVal
    simp only [h, Bool.false_eq_true, if_false]
  exact ⟨hmain ld, (hmain ld).trans (hmain ld2).symm⟩

/-- Witness for C9: a literal subject spec resolves verbatim with no
parse on a line that is not JSON at all. -/
theorem c9_literal_spec_witness :
    cliOptions.getVal
      { TopicEndpoint := "e", ID := "", Subject := "my subject",
        EventType := "t", EventTime := "now", Header := [],
        DataVersion := "1.0", BatchSize := 10, FlushInterval := 2000 }
      "subject" { data := "not json" } = (.ok "my subject", 0) :=
  (c9_literal_spec
    { TopicEndpoint := "e", ID := "", Subject := "my subject",
      EventType := "t", EventTime := "now", Header := [],
      DataVersion := "1.0", BatchSize := 10, FlushInterval := 2000 }
    "subject" { data := "not json" } { data := "\x7b\x7d" } (by decide)).1

/-- C6 (code bug witness): the claim says each line is unmarshalled at
most once, on first demand, and the parsed value is reused for the other
fields; that is clearly the intent of the iface cache field of lineData
and its nil check, but the value receiver on lineData.unmarshalled makes
the cached value invisible to the caller, so buildEvent with two
query-driven fields (id and eventType, as in the test configuration)
unmarshals the same line twice.  The second conjunct shows the build
still succeeds, so the double parse happens on the normal path. -/
theorem c6_parse_twice :
    (buildEvent
      { TopicEndpoint := "example.com", ID := "jp:id", Subject := "my subject",
        EventType := "jp:type", EventTime := "now", Header := [],
        DataVersion := "1.0", BatchSize := 10, FlushInterval := 2000 }
      "3fa85f64" 0 "\x7b\"id\":\"a\",\"type\":\"x\"\x7d").2 = 2 ∧
    (buildEvent
      { TopicEndpoint := "example.com", ID := "jp:id", Subject := "my subject",
        EventType := "jp:type", EventTime := "now", Header := [],
        DataVersion := "1.0", BatchSize := 10, FlushInterval := 2000 }
      "3fa85f64" 0 "\x7b\"id\":\"a\",\"type\":\"x\"\x7d").1 =
      .ok { ID := "a", Topic := "", Subject := "my subject",
            Data := "\x7b\"id\":\"a\",\"type\":\"x\"\x7d", EventType := "x",
            EventTime := "1970-01-01T00:00:00Z", DataVersion := "1.0" } :=
  ⟨rfl, rfl⟩

/-- Digit characters are never the dot character. -/
theorem digitChar_ne_dot (m : ℕ) : digitChar m ≠ '.' := by
  unfold digitChar
  split_ifs <;> decide

/-- The digit accumulation never produces a dot. -/
theorem natCharsAux_ne_dot : ∀ (fuel n : ℕ), '.' ∉ natCharsAux fuel n := by
  intro fuel
  induction fuel with
  | zero =>
    intro n
    simp [natCharsAux]
  | succ fuel ih =>
    intro n
    unfold natCharsAux
    split_ifs with h
    · simp only [List.mem_singleton]
      intro hh
      exact digitChar_ne_dot n hh.symm
    · intro hmem
      rcases List.mem_append.mp hmem with hm | hm
      · exact ih (n / 10) hm
      · rw [List.mem_singleton] at hm
        exact digitChar_ne_dot (n % 10) hm.symm

/-- Decimal digits of a natural never contain a dot. -/
theorem natChars_ne_dot (n : ℕ) : '.' ∉ natChars n :=
  natCharsAux_ne_dot _ _

/-- Decimal rendering of an integer never contains a dot. -/
theorem intRender_ne_dot (z : ℤ) : '.' ∉ (intRender z).data := by
  unfold intRender
  split_ifs with h
  · intro hmem
    have hmem2 : '.' ∈ '-' :: natChars z.natAbs := hmem
    rcases List.mem_cons.mp hmem2 with hc | hc
    · exact absurd hc (by decide)
    · exact natChars_ne_dot _ hc
  · intro hmem
    have hmem2 : '.' ∈ natChars z.toNat := hmem
    exact natChars_ne_dot _ hmem2

/-- The half-even rounding lands within one half of its argument. -/
theorem roundHalfEven_near (q : ℚ) : |q - (roundHalfEven q : ℚ)| ≤ 1 / 2 := by
  unfold roundHalfEven
  dsimp only
  set d : ℤ := (q.den : ℤ) with hdd
  set f : ℤ := q.num.fdiv d with hff
  set r : ℤ := q.num.fmod d with hrr
  have hdpos : 0 < d := by
    rw [hdd]
    exact_mod_cast q.den_pos
  have hsum : d * f + r = q.num := Int.fdiv_add_fmod q.num d
  have hr0 : 0 ≤ r := Int.fmod_nonneg' q.num hdpos
  have hrd : r < d := Int.fmod_lt_of_pos q.num hdpos
  have hdQ : (0 : ℚ) < (d : ℚ) := by exact_mod_cast hdpos
  have hdne : (d : ℚ) ≠ 0 := hdQ.ne'
  have hq : q = ((d * f + r : ℤ) : ℚ) / (d : ℚ) := by
    rw [hsum, hdd]
    push_cast
    exact (Rat.num_div_den q).symm
  have hqf : q - (f : ℚ) = (r : ℚ) / (d : ℚ) := by
    rw [hq]
    push_cast
    field_simp
  split_ifs with h1 h2 h3
  · rw [hqf, abs_of_nonneg (div_nonneg (by exact_mod_cast hr0) hdQ.le)]
    rw [div_le_iff₀ hdQ]
    have h1Q : (2 : ℚ) * (r : ℚ) < (d : ℚ) := by exact_mod_cast h1
    linarith
  · have hc : q - ((f + 1 : ℤ) : ℚ) = (r : ℚ) / (d : ℚ) - 1 := by
      push_cast
      push_cast at hqf
      linarith
    rw [hc, abs_le]
    have h2Q : (d : ℚ) < 2 * (r : ℚ) := by exact_mod_cast h2
    have hge : (1 : ℚ) / 2 ≤ (r : ℚ) / (d : ℚ) := by
      rw [le_div_iff₀ hdQ]
      linarith
    have hlt1 : (r : ℚ) / (d : ℚ) < 1 := by
      rw [div_lt_one hdQ]
      exact_mod_cast hrd
    constructor <;> linarith
  · have heq : (2 * r : ℤ) = d := by omega
    have h2Q : (2 : ℚ) * (r : ℚ) = (d : ℚ) := by exact_mod_cast heq
    have hhalf : (r : ℚ) / (d : ℚ) = 1 / 2 := by
      field_simp
      linarith
    rw [hqf, hhalf, abs_of_nonneg (by norm_num)]
  · have heq : (2 * r : ℤ) = d := by omega
    have h2Q : (2 : ℚ) * (r : ℚ) = (d : ℚ) := by exact_mod_cast heq
    have hhalf : (r : ℚ) / (d : ℚ) = 1 / 2 := by
      field_simp
      linarith
    have hc : q - ((f + 1 : ℤ) : ℚ) = (r : ℚ) / (d : ℚ) - 1 := by
      push_cast
      push_cast at hqf
      linarith
    rw [hc, hhalf, abs_sub_comm, abs_of_nonneg (by norm_num : (0 : ℚ) ≤ 1 - 1 / 2)]
    norm_num

/-- C10: a query-expression result that is a JSON number is rendered by
jmespathString with no fractional part: the value is rounded to the
nearest integer (ties to even, so within one half) and printed as a
decimal integer, rather than through the generic representation; in
particular 3.7 renders as the string 4. -/
theorem c10_number_render :
    (∀ jp doc q, jmesSearch jp doc = .ok (.num q) →
      jmespathString jp doc = .ok (fmtDotZeroF q)) ∧
    (∀ q : ℚ, '.' ∉ (fmtDotZeroF q).data) ∧
    (∀ q : ℚ, |q - (roundHalfEven q : ℚ)| ≤ 1 / 2) ∧
    fmtDotZeroF (mkRat 37 10) = "4" := by
  refine ⟨?_, ?_, roundHalfEven_near, by decide⟩
  · intro jp doc q h
    unfold jmespathString
    rw [h]
  · intro q
    exact intRender_ne_dot _

/-- Witness for C10 at a concrete document whose field holds 3.7. -/
theorem c10_number_render_witness :
    jmespathString "n" (.obj [("n", .num (mkRat 37 10))]) =
      .ok (fmtDotZeroF (mkRat 37 10)) ∧
    '.' ∉ (fmtDotZeroF (mkRat 37 10)).data :=
  ⟨c10_number_render.1 "n" (.obj [("n", .num (mkRat 37 10))]) (mkRat 37 10) rfl,
   c10_number_render.2.1 (mkRat 37 10)⟩

/-- Resolving the id field depends only on the ID spec and the line:
the resolver reads the spec map at the key id and the jp cache is keyed
by data that never changes. -/
theorem getVal_id_congr (c c2 : cliOptions) (h : c2.ID = c.ID)
    (ld : lineData) : c2.getVal "id" ld = c.getVal "id" ld := by
  have h1 : c2.optDef "id" = c2.ID := rfl
  have h2 : c.optDef "id" = c.ID := rfl
  unfold cliOptions.getVal cliOptions.jmespath
  rw [h1, h2, h]

/-- C8: buildEvent resolves the fields in the fixed order id, subject,
dataVersion, eventTime, eventType, returns the first resolution error
with no event, and when an earlier field fails no later field (nor the
uuid or the clock) influences the result: any configuration agreeing on
the failing field spec yields the same error. -/
theorem c8_buildEvent_error_order (c : cliOptions) (u : String) (nowNs : ℤ)
    (data : String) :
    (∀ e n, c.getVal "id" { data := data } = (.error e, n) →
      (buildEvent c u nowNs data).1 = .error e) ∧
    (∀ v1 n1 e n, c.getVal "id" { data := data } = (.ok v1, n1) →
      c.getVal "subject" { data := data } = (.error e, n) →
      (buildEvent c u nowNs data).1 = .error e) ∧
    (∀ v1 n1 v2 n2 e n, c.getVal "id" { data := data } = (.ok v1, n1) →
      c.getVal "subject" { data := data } = (.ok v2, n2) →
      c.getVal "dataVersion" { data := data } = (.error e, n) →
      (buildEvent c u nowNs data).1 = .error e) ∧
    (∀ v1 n1 v2 n2 v3 n3 e n, c.getVal "id" { data := data } = (.ok v1, n1) →
      c.getVal "subject" { data := data } = (.ok v2, n2) →
      c.getVal "dataVersion" { data := data } = (.ok v3, n3) →
      c.eventTime nowNs { data := data } = (.error e, n) →
      (buildEvent c u nowNs data).1 = .error e) ∧
    (∀ v1 n1 v2 n2 v3 n3 v4 n4 e n,
      c.getVal "id" { data := data } = (.ok v1, n1) →
      c.getVal "subject" { data := data } = (.ok v2, n2) →
      c.getVal "dataVersion" { data := data } = (.ok v3, n3) →
      c.eventTime nowNs { data := data } = (.ok v4, n4) →
      c.getVal "eventType" { data := data } = (.error e, n) →
      (buildEvent c u nowNs data).1 = .error e) ∧
    (∀ c2 u2 now2 e n, c2.ID = c.ID →
      c.getVal "id" { data := data } = (.error e, n) →
      (buildEvent c2 u2 now2 data).1 = .error e) := by
  refine ⟨?_, ?_, ?_, ?_, ?_, ?_⟩
  · intro e n h1
    unfold buildEvent
    dsimp only
    rw [h1]
  · intro v1 n1 e n h1 h2
    unfold buildEvent
    dsimp only
    rw [h1, h2]
  · intro v1 n1 v2 n2 e n h1 h2 h3
    unfold buildEvent
    dsimp only
    rw [h1, h2, h3]
  · intro v1 n1 v2 n2 v3 n3 e n h1 h2 h3 h4
    unfold buildEvent
    dsimp only
    rw [h1, h2, h3, h4]
  · intro v1 n1 v2 n2 v3 n3 v4 n4 e n h1 h2 h3 h4 h5
    unfold buildEvent
    dsimp only
    rw [h1, h2, h3, h4, h5]
  · intro c2 u2 now2 e n hid h1
    unfold buildEvent
    dsimp only
    rw [getVal_id_congr c c2 hid, h1]

/-- Witness for C8: a bad id expression fails at the id step; a
non-numeric eventTime literal fails at the eventTime step after the
three earlier fields resolve. -/
theorem c8_buildEvent_error_order_witness :
    (buildEvent
      { TopicEndpoint := "e", ID := "jp:!!", Subject := "s", EventType := "t",
        EventTime := "now", Header := [], DataVersion := "1.0",
        BatchSize := 10, FlushInterval := 2000 } "u" 0 "\x7b\x7d").1 =
      .error "SyntaxError: !!" ∧
    (buildEvent
      { TopicEndpoint := "e", ID := "x", Subject := "s", EventType := "t",
        EventTime := "bad", Header := [], DataVersion := "1.0",
        BatchSize := 10, FlushInterval := 2000 } "u" 0 "\x7b\x7d").1 =
      .error "invalid syntax: bad" :=
  ⟨(c8_buildEvent_error_order
      { TopicEndpoint := "e", ID := "jp:!!", Subject := "s", EventType := "t",
        EventTime := "now", Header := [], DataVersion := "1.0",
        BatchSize := 10, FlushInterval := 2000 } "u" 0 "\x7b\x7d").1
      "SyntaxError: !!" 0 rfl,
   (c8_buildEvent_error_order
      { TopicEndpoint := "e", ID := "x", Subject := "s", EventType := "t",
        EventTime := "bad", Header := [], DataVersion := "1.0",
        BatchSize := 10, FlushInterval := 2000 } "u" 0 "\x7b\x7d").2.2.2.1
      "x" 0 "s" 0 "1.0" 0 "invalid syntax: bad" 0 rfl rfl rfl rfl⟩

end EgPipe
